import Mathlib

/-!
Formal model of the core logic of the Pdf_splitter repository:
the page-selection grammar (`page_selection.py`), the split engine
(`splitter.py`) and the merge engine (`merger.py`).

The embedding is a shallow one: the Python functions are translated into
executable Lean functions.  File-system effects (file writes), status
messages and progress callbacks are recorded in an explicit event trace;
validation against the file system is passed in as explicit parameters
(whether the input path names an existing file, whether the output
directory could be created).  Strings are modelled over ASCII: Python's
`str.strip` and `int` additionally accept some non-ASCII whitespace and
digits, which no claim exercises.
-/

set_option maxHeartbeats 1000000

namespace PdfSplit

/-- ASCII whitespace characters removed by Python's `str.strip()`. -/
def isPySpace (c : Char) : Bool :=
  c = ' ' || c = '\t' || c = '\n' || c = '\r' || c = '\x0b' || c = '\x0c'

/-- Python `str.strip()`: remove leading and trailing whitespace. -/
def pyStrip (s : String) : String :=
  ⟨((s.data.dropWhile isPySpace).reverse.dropWhile isPySpace).reverse⟩

/-- Python `str.split(sep)` for a one-character separator, on char lists.
`"".split(sep)` is `[""]`, and separators at the ends produce empty pieces,
exactly as in Python. -/
def splitChar (sep : Char) : List Char → List (List Char)
  | [] => [[]]
  | c :: rest =>
    let r := splitChar sep rest
    if c = sep then [] :: r
    else
      match r with
      | h :: t => (c :: h) :: t
      | [] => [[c]]

/-- Python `str.split(sep)` for a one-character separator. -/
def pySplit (sep : Char) (s : String) : List String :=
  (splitChar sep s.data).map (fun l => ⟨l⟩)

/-- Scan the digits of a Python int literal after the first digit.
`prevU` records that the previous character was an underscore, which must
be followed by a digit. -/
def digitsAux (prevU : Bool) (acc : Nat) : List Char → Option Nat
  | [] => if prevU then none else some acc
  | c :: rest =>
    if c.isDigit then digitsAux false (acc * 10 + (c.toNat - 48)) rest
    else if c = '_' then
      if prevU then none else digitsAux true acc rest
    else none

/-- The value of a nonempty digit string, allowing single underscores
between digits as Python's `int` does. -/
def digitsVal : List Char → Option Nat
  | [] => none
  | c :: rest => if c.isDigit then digitsAux false (c.toNat - 48) rest else none

/-- Python `int(s)` on a string: optional surrounding whitespace, an
optional sign, then decimal digits with optional single underscores
between digits.  `none` models `ValueError`. -/
def pyInt (s : String) : Option Int :=
  match (pyStrip s).data with
  | '+' :: rest => (digitsVal rest).map (fun n => (n : Int))
  | '-' :: rest => (digitsVal rest).map (fun n => -(n : Int))
  | l => (digitsVal l).map (fun n => (n : Int))

/-- Python `'-' in part`. -/
def hasDash (s : String) : Bool :=
  s.data.any (fun c => c = '-')

/-- Python `part.split("-", 1)`: the piece before the first dash and the
piece after it (the whole string and `""` when there is no dash). -/
def splitFirstDash (s : String) : String × String :=
  let pre := s.data.takeWhile (fun c => c ≠ '-')
  (⟨pre⟩, ⟨s.data.drop (pre.length + 1)⟩)

/-- Python `list(range(start, stop + 1))` over mathematical integers. -/
def rangeList (start stop : Int) : List Int :=
  (List.range (stop + 1 - start).toNat).map (fun (i : Nat) => start + (i : Int))

/-- The errors raised by `parse_page_selection`, one constructor per
`raise` site, each carrying the offending token verbatim.
`invalidRange` and `rangeOutOfBounds` are the spec's `InvalidRange` kind;
`invalidPageNumber` and `pageOutOfBounds` are its `InvalidPageNumber`
kind. -/
inductive SelError where
  | invalidRange (tok : String)
  | rangeOutOfBounds (tok : String)
  | invalidPageNumber (tok : String)
  | pageOutOfBounds (tok : String)
  deriving DecidableEq, Repr

/-- The message of the `ValueError` raised at each site. -/
def SelError.message : SelError → String
  | .invalidRange t => "Invalid range: " ++ t
  | .rangeOutOfBounds t => "Page range out of bounds: " ++ t
  | .invalidPageNumber t => "Invalid page number: " ++ t
  | .pageOutOfBounds t => "Page out of bounds: " ++ t

/-- The offending token carried by an error. -/
def SelError.tok : SelError → String
  | .invalidRange t => t
  | .rangeOutOfBounds t => t
  | .invalidPageNumber t => t
  | .pageOutOfBounds t => t

/-- The spec's `InvalidRange` error kind. -/
def SelError.isRangeKind : SelError → Bool
  | .invalidRange _ => true
  | .rangeOutOfBounds _ => true
  | _ => false

/-- The spec's `InvalidPageNumber` error kind. -/
def SelError.isPageKind : SelError → Bool
  | .invalidPageNumber _ => true
  | .pageOutOfBounds _ => true
  | _ => false

/-- The loop of `parse_page_selection` over the comma-separated pieces,
with `pages` the accumulator list built so far. -/
def parseLoop (total_pages : Int) (pages : List Int) :
    List String → Except SelError (List Int)
  | [] => .ok pages
  | rawPart :: rest =>
    let part := pyStrip rawPart
    if part = "" then parseLoop total_pages pages rest
    else if hasDash part then
      match pyInt (splitFirstDash part).1, pyInt (splitFirstDash part).2 with
      | some start, some stop =>
        if 1 ≤ start ∧ start ≤ stop ∧ stop ≤ total_pages then
          parseLoop total_pages (pages ++ rangeList start stop) rest
        else .error (.rangeOutOfBounds part)
      | _, _ => .error (.invalidRange part)
    else
      match pyInt part with
      | some page =>
        if 1 ≤ page ∧ page ≤ total_pages then
          parseLoop total_pages (pages ++ [page]) rest
        else .error (.pageOutOfBounds part)
      | none => .error (.invalidPageNumber part)

/-- `parse_page_selection(selection, total_pages)` from
`src/page_selection.py`: convert a selection like `"1-3,5"` into the list
of page numbers, or raise the first error. -/
def parse_page_selection (selection : String) (total_pages : Int) :
    Except SelError (List Int) :=
  parseLoop total_pages [] (pySplit ',' selection)

/-- The stripped, non-blank tokens of a selection string, in order:
the tokens the parse loop actually acts on. -/
def cleanToks (selection : String) : List String :=
  ((pySplit ',' selection).map pyStrip).filter (fun t => t ≠ "")

/-- The stripped, non-blank tokens of an already-split piece list. -/
def cleanParts (parts : List String) : List String :=
  (parts.map pyStrip).filter (fun t => t ≠ "")

/-- Token-level error prediction: the error a single stripped non-blank
token causes, `none` when the token is valid.  Mirrors the grammar: a
token containing a dash is a range token, anything else a singleton. -/
def tokErr (total_pages : Int) (tok : String) : Option SelError :=
  if hasDash tok then
    match pyInt (splitFirstDash tok).1, pyInt (splitFirstDash tok).2 with
    | some start, some stop =>
      if 1 ≤ start ∧ start ≤ stop ∧ stop ≤ total_pages then none
      else some (.rangeOutOfBounds tok)
    | _, _ => some (.invalidRange tok)
  else
    match pyInt tok with
    | some page =>
      if 1 ≤ page ∧ page ≤ total_pages then none
      else some (.pageOutOfBounds tok)
    | none => some (.invalidPageNumber tok)

/-- Token-level expansion of a valid stripped non-blank token: a range
token `A-B` expands to `range(A, B+1)`, a singleton to itself. -/
def tokExpand (tok : String) : List Int :=
  if hasDash tok then
    match pyInt (splitFirstDash tok).1, pyInt (splitFirstDash tok).2 with
    | some start, some stop => rangeList start stop
    | _, _ => []
  else
    match pyInt tok with
    | some page => [page]
    | none => []

/-- A page is an opaque content unit: the engines never inspect pages,
only copy them, so an abstract identifier suffices. -/
abbrev Page := Nat

/-- An opened PDF document as the engines see it: its ordered pages,
whether the reader reports it encrypted, and whether the single
empty-password `decrypt("")` attempt succeeds (`false` covers both a zero
return value and an exception during the attempt, which the code treats
identically). -/
structure Document where
  pages : List Page
  encrypted : Bool
  decryptOk : Bool
  deriving DecidableEq, Repr

/-- Observable events of one engine invocation, in order: status
messages, file writes (path with the page content written), and
progress callbacks. -/
inductive Ev where
  | status (msg : String)
  | write (name : String) (content : List Page)
  | progress (current total : Nat)
  deriving DecidableEq, Repr

/-- The errors the engines report through `human_error`, one constructor
per call site, named after the spec's error taxonomy. -/
inductive AppError where
  | validationNoPdf      -- "Please select a PDF file first."
  | fileNotFoundPdf      -- "The selected PDF file does not exist."
  | validationNoOutDir   -- "Please choose an output folder."
  | outputDirUnwritable  -- "Cannot create the output folder."
  | decryptionFailed     -- "This PDF appears to be password-protected. Decryption failed."
  | emptyDocument        -- "No pages found in the PDF."
  | missingPageSelection -- "Please specify page selections."
  | splitFailed          -- "An unexpected error occurred while splitting."
  | missingInput         -- "Please select PDF files to merge."
  | missingOutput        -- "Please choose an output file."
  | fileNotFound (path : String)  -- f"File not found: {path}"
  | mergeDecryptionFailed -- "One of the PDFs is password-protected. Decryption failed."
  | mergeFailed          -- "An unexpected error occurred while merging."
  | selection (e : SelError)      -- human_error(str(e)) for a grammar error
  deriving DecidableEq, Repr

/-- The message each error shows in the dialog. -/
def AppError.message : AppError → String
  | .validationNoPdf => "Please select a PDF file first."
  | .fileNotFoundPdf => "The selected PDF file does not exist."
  | .validationNoOutDir => "Please choose an output folder."
  | .outputDirUnwritable => "Cannot create the output folder."
  | .decryptionFailed => "This PDF appears to be password-protected. Decryption failed."
  | .emptyDocument => "No pages found in the PDF."
  | .missingPageSelection => "Please specify page selections."
  | .splitFailed => "An unexpected error occurred while splitting."
  | .missingInput => "Please select PDF files to merge."
  | .missingOutput => "Please choose an output file."
  | .fileNotFound p => "File not found: " ++ p
  | .mergeDecryptionFailed => "One of the PDFs is password-protected. Decryption failed."
  | .mergeFailed => "An unexpected error occurred while merging."
  | .selection e => e.message

/-- Python `f"\x7bn:0wd\x7d"` for natural numbers: decimal digits padded
with leading zeros to the given width. -/
def pad (width n : Nat) : String :=
  let s := toString n
  ⟨List.replicate (width - s.data.length) '0' ++ s.data⟩

/-- POSIX `os.path.basename`: the part of the path after the last slash. -/
def basename (p : String) : String :=
  ⟨(p.data.reverse.takeWhile (fun c => c ≠ '/')).reverse⟩

/-- `os.path.splitext(b)[0]`: drop the extension at the last dot, unless
every character before that dot is itself a dot (leading dots never start
an extension). -/
def splitextRoot (b : String) : String :=
  let l := b.data
  let extLen := (l.reverse.takeWhile (fun c => c ≠ '.')).length
  if extLen = l.length then b
  else
    let stemLen := l.length - extLen - 1
    if (l.take stemLen).all (fun c => c = '.') then b
    else ⟨l.take stemLen⟩

/-- `os.path.splitext(os.path.basename(pdf_path))[0]`, the `base` used to
name output files. -/
def baseOf (pdf_path : String) : String :=
  splitextRoot (basename pdf_path)

/-- The result of one engine invocation: its event trace and the error it
reported through `human_error`, if any. -/
abbrev RunResult := List Ev × Option AppError

/-- The page-writing loop of `PdfSplitter.split`: for each page, write a
single-page file named `base_pNNN.pdf`, then report status and progress.
`idx` is the 1-based index of the first remaining page. -/
def splitPagesLoop (base : String) (total idx : Nat) : List Page → List Ev
  | [] => []
  | page :: rest =>
    Ev.write (base ++ "_p" ++ pad 3 idx ++ ".pdf") [page]
      :: Ev.status ("Writing page " ++ toString idx ++ "/" ++ toString total ++ "...")
      :: Ev.progress idx total
      :: splitPagesLoop base total (idx + 1) rest

/-- `PdfSplitter.split(pdf_path, out_dir)` from `src/splitter.py`.
`pdfIsFile` models `os.path.isfile(pdf_path)` and `mkdirOk` whether
`os.makedirs` succeeds; `doc` is the document `PdfReader` yields.  The
best-effort `os.startfile` call at the end is presentation glue swallowed
by its own handler and is not an observable of the model. -/
def PdfSplitter.split (pdf_path out_dir : String) (pdfIsFile mkdirOk : Bool)
    (doc : Document) : RunResult :=
  if pdf_path = "" then ([], some .validationNoPdf)
  else if !pdfIsFile then ([], some .fileNotFoundPdf)
  else if out_dir = "" then ([], some .validationNoOutDir)
  else if !mkdirOk then ([], some .outputDirUnwritable)
  else if doc.encrypted && !doc.decryptOk then
    ([Ev.status "Reading PDF..."], some .decryptionFailed)
  else if doc.pages.length = 0 then
    ([Ev.status "Reading PDF..."], some .emptyDocument)
  else
    (Ev.status "Reading PDF..."
       :: splitPagesLoop (baseOf pdf_path) doc.pages.length 1 doc.pages
       ++ [Ev.status ("Done. Wrote " ++ toString doc.pages.length
                        ++ " files to:\n" ++ out_dir)],
     none)

/-- Python list indexing `l[i]` with negative wrap-around; `none` models
`IndexError`. -/
def pyIndex (l : List Page) (i : Int) : Option Page :=
  let j := if i < 0 then i + l.length else i
  if h : 0 ≤ j ∧ j < l.length then some (l.get ⟨j.toNat, by omega⟩)
  else none

/-- `reader.pages[p - 1]` for each selected page number, in order;
`none` when any lookup raises `IndexError`. -/
def fetchPages (pages : List Page) : List Int → Option (List Page)
  | [] => some []
  | p :: rest =>
    (pyIndex pages (p - 1)).bind fun pg =>
      (fetchPages pages rest).map (fun r => pg :: r)

/-- The non-blank stripped groups of a `pages_spec`, as in
`[g.strip() for g in pages_spec.split(";") if g.strip()]`. -/
def specGroups (pages_spec : String) : List String :=
  ((pySplit ';' pages_spec).map pyStrip).filter (fun g => g ≠ "")

/-- The per-group loop of `split_chosen_pages`: parse the group, collect
its pages, write `base_selKK.pdf`, report status and progress; a parse
error aborts the loop, an `IndexError` is caught by the outer handler. -/
def chosenLoop (base : String) (doc : Document) (total_groups idx : Nat) :
    List String → RunResult
  | [] => ([], none)
  | group :: rest =>
    match parse_page_selection group (doc.pages.length : Int) with
    | .error e => ([], some (.selection e))
    | .ok page_numbers =>
      match fetchPages doc.pages page_numbers with
      | none => ([], some .splitFailed)
      | some content =>
        let r := chosenLoop base doc total_groups (idx + 1) rest
        (Ev.write (base ++ "_sel" ++ pad 2 idx ++ ".pdf") content
           :: Ev.status ("Writing file " ++ toString idx ++ "/"
                           ++ toString total_groups ++ "...")
           :: Ev.progress idx total_groups
           :: r.1,
         r.2)

/-- `PdfSplitter.split_chosen_pages(pdf_path, out_dir, pages_spec)` from
`src/splitter.py`, with the same file-system parameters as `split`. -/
def PdfSplitter.split_chosen_pages (pdf_path out_dir pages_spec : String)
    (pdfIsFile mkdirOk : Bool) (doc : Document) : RunResult :=
  if pdf_path = "" then ([], some .validationNoPdf)
  else if !pdfIsFile then ([], some .fileNotFoundPdf)
  else if out_dir = "" then ([], some .validationNoOutDir)
  else if pages_spec = "" then ([], some .missingPageSelection)
  else if specGroups pages_spec = [] then ([], some .missingPageSelection)
  else if !mkdirOk then ([], some .outputDirUnwritable)
  else if doc.encrypted && !doc.decryptOk then
    ([Ev.status "Reading PDF..."], some .decryptionFailed)
  else
    let groups := specGroups pages_spec
    let r := chosenLoop (baseOf pdf_path) doc groups.length 1 groups
    match r.2 with
    | some e => (Ev.status "Reading PDF..." :: r.1, some e)
    | none =>
      (Ev.status "Reading PDF..." :: r.1
         ++ [Ev.status ("Done. Wrote " ++ toString groups.length
                          ++ " files to:\n" ++ out_dir)],
       none)

/-- The file system the merger reads from: the paths that name existing
files, each with the document read from it.  A path absent from the list
models `os.path.isfile(path) == False`. -/
structure FileSys where
  files : List (String × Document)
  deriving Repr

/-- Look a path up in the file system. -/
def FileSys.lookup (fs : FileSys) (p : String) : Option Document :=
  (fs.files.find? (fun pr => pr.1 = p)).map Prod.snd

/-- The non-blank stripped source paths of a merge input string, as in
`[p.strip() for p in paths_str.split(";") if p.strip()]`. -/
def mergePaths (paths_str : String) : List String :=
  ((pySplit ';' paths_str).map pyStrip).filter (fun p => p ≠ "")

/-- The per-source loop of `PdfMerger.merge`: check the source exists,
apply the decryption policy, append all its pages to the accumulating
writer, then report status and progress.  Returns the trace plus either
the first error or the final accumulated page list. -/
def mergeLoop (fs : FileSys) (total : Nat) (writerPages : List Page)
    (idx : Nat) : List String → List Ev × Except AppError (List Page)
  | [] => ([], .ok writerPages)
  | path :: rest =>
    match fs.lookup path with
    | none => ([], .error (.fileNotFound path))
    | some doc =>
      if doc.encrypted && !doc.decryptOk then
        ([], .error .mergeDecryptionFailed)
      else
        let r := mergeLoop fs total (writerPages ++ doc.pages) (idx + 1) rest
        (Ev.status ("Processed " ++ toString idx ++ "/" ++ toString total
                      ++ " files...")
           :: Ev.progress idx total
           :: r.1,
         r.2)

/-- `PdfMerger.merge(paths_str, out_path)` from `src/merger.py`: the
accumulated document is written once, after the source loop. -/
def PdfMerger.merge (paths_str out_path : String) (fs : FileSys) : RunResult :=
  if paths_str = "" then ([], some .missingInput)
  else
    let paths := mergePaths paths_str
    if out_path = "" then ([], some .missingOutput)
    else
      let r := mergeLoop fs paths.length [] 1 paths
      match r.2 with
      | .error e => (r.1, some e)
      | .ok pages =>
        (r.1 ++ [Ev.write out_path pages,
                 Ev.status ("Done. Wrote merged PDF to:\n" ++ out_path)],
         none)

/-- The page content `split_chosen_pages` writes for one valid group: the
pages the group's parsed numbers select, in parse order. -/
def groupContent (doc : Document) (g : String) : List Page :=
  match parse_page_selection g (doc.pages.length : Int) with
  | .ok ps => ps.map (fun p => doc.pages.getD (p - 1).toNat 0)
  | .error _ => []

/-- The pages of the document a path holds in the modelled file system. -/
def docPages (fs : FileSys) (p : String) : List Page :=
  ((fs.lookup p).getD ⟨[], false, true⟩).pages

/-- The files written during a trace, in order: name and page content. -/
def writesOf : List Ev → List (String × List Page)
  | [] => []
  | .write n c :: r => (n, c) :: writesOf r
  | _ :: r => writesOf r

/-- The progress reports of a trace, in order. -/
def progressOf : List Ev → List (Nat × Nat)
  | [] => []
  | .progress c t :: r => (c, t) :: progressOf r
  | _ :: r => progressOf r

/-- The write and progress events of a trace, in order, status messages
dropped: the observable interleaving of file output and reporting. -/
def wpOf : List Ev → List Ev
  | [] => []
  | .write n c :: r => .write n c :: wpOf r
  | .progress c t :: r => .progress c t :: wpOf r
  | .status _ :: r => wpOf r

/-! Helper lemmas about the selection parser. -/

theorem cleanToks_eq_cleanParts (s : String) :
    cleanToks s = cleanParts (pySplit ',' s) := rfl

theorem cleanParts_cons (raw : String) (rest : List String) :
    cleanParts (raw :: rest) =
      if pyStrip raw = "" then cleanParts rest
      else pyStrip raw :: cleanParts rest := by
  simp only [cleanParts, List.map_cons, List.filter_cons]
  by_cases h : pyStrip raw = "" <;> simp [h]

theorem parseLoop_cons (total : Int) (acc : List Int) (raw : String)
    (rest : List String) :
    parseLoop total acc (raw :: rest) =
      (if pyStrip raw = "" then parseLoop total acc rest
       else
         match tokErr total (pyStrip raw) with
         | some e => .error e
         | none => parseLoop total (acc ++ tokExpand (pyStrip raw)) rest) := by
  by_cases h1 : pyStrip raw = ""
  · simp [parseLoop, h1]
  · by_cases h2 : hasDash (pyStrip raw)
    · rcases ha : pyInt (splitFirstDash (pyStrip raw)).1 with _ | a
      · simp [parseLoop, tokErr, tokExpand, h1, h2, ha]
      · rcases hb : pyInt (splitFirstDash (pyStrip raw)).2 with _ | b
        · simp [parseLoop, tokErr, tokExpand, h1, h2, ha, hb]
        · by_cases h3 : 1 ≤ a ∧ a ≤ b ∧ b ≤ total <;>
            simp [parseLoop, tokErr, tokExpand, h1, h2, ha, hb, h3]
    · rcases ha : pyInt (pyStrip raw) with _ | p
      · simp [parseLoop, tokErr, tokExpand, h1, h2, ha]
      · by_cases h3 : 1 ≤ p ∧ p ≤ total <;>
          simp [parseLoop, tokErr, tokExpand, h1, h2, ha, h3]

theorem parseLoop_error_iff (total : Int) (acc : List Int)
    (parts : List String) (e : SelError) :
    parseLoop total acc parts = .error e ↔
      ∃ pre tok post, cleanParts parts = pre ++ tok :: post ∧
        (∀ t ∈ pre, tokErr total t = none) ∧ tokErr total tok = some e := by
  induction parts generalizing acc with
  | nil =>
    simp only [parseLoop, cleanParts, List.map_nil, List.filter_nil]
    constructor
    · intro h; cases h
    · rintro ⟨pre, tok, post, h, -, -⟩
      exact absurd h (by simp)
  | cons raw rest ih =>
    rw [parseLoop_cons, cleanParts_cons]
    by_cases h1 : pyStrip raw = ""
    · simp only [h1, if_true]; exact ih acc
    · simp only [h1, if_false]
      cases htok : tokErr total (pyStrip raw) with
      | some e' =>
        simp only []
        constructor
        · intro h
          refine ⟨[], pyStrip raw, cleanParts rest, by simp, by simp, ?_⟩
          cases h; exact htok
        · rintro ⟨pre, tok, post, hdec, hpre, hbad⟩
          rcases pre with _ | ⟨t, pre⟩
          · simp only [List.nil_append, List.cons.injEq] at hdec
            rw [← hdec.1, htok] at hbad
            cases hbad; rfl
          · simp only [List.cons_append, List.cons.injEq] at hdec
            have := hpre t (by simp)
            rw [← hdec.1, htok] at this
            cases this
      | none =>
        simp only []
        rw [ih]
        constructor
        · rintro ⟨pre, tok, post, hdec, hpre, hbad⟩
          refine ⟨pyStrip raw :: pre, tok, post, by simp [hdec], ?_, hbad⟩
          intro t ht
          rcases List.mem_cons.mp ht with rfl | ht
          · exact htok
          · exact hpre t ht
        · rintro ⟨pre, tok, post, hdec, hpre, hbad⟩
          rcases pre with _ | ⟨t, pre⟩
          · simp only [List.nil_append, List.cons.injEq] at hdec
            rw [← hdec.1, htok] at hbad
            cases hbad
          · simp only [List.cons_append, List.cons.injEq] at hdec
            exact ⟨pre, tok, post, hdec.2, fun u hu => hpre u (by simp [hu]), hbad⟩

theorem parseLoop_ok_iff (total : Int) (acc l : List Int)
    (parts : List String) :
    parseLoop total acc parts = .ok l ↔
      (∀ t ∈ cleanParts parts, tokErr total t = none) ∧
      l = acc ++ (cleanParts parts).flatMap tokExpand := by
  induction parts generalizing acc with
  | nil =>
    simp only [parseLoop, cleanParts, List.map_nil, List.filter_nil,
      List.flatMap_nil, List.append_nil, List.not_mem_nil]
    constructor
    · intro h; cases h; simp
    · rintro ⟨-, rfl⟩; rfl
  | cons raw rest ih =>
    rw [parseLoop_cons, cleanParts_cons]
    by_cases h1 : pyStrip raw = ""
    · simp only [h1, if_true]; exact ih acc
    · simp only [h1, if_false]
      cases htok : tokErr total (pyStrip raw) with
      | some e' =>
        simp only []
        constructor
        · intro h; cases h
        · rintro ⟨hgood, -⟩
          have := hgood (pyStrip raw) (by simp)
          rw [htok] at this; cases this
      | none =>
        simp only []
        rw [ih]
        constructor
        · rintro ⟨hgood, rfl⟩
          refine ⟨?_, by simp⟩
          intro t ht
          rcases List.mem_cons.mp ht with rfl | ht
          · exact htok
          · exact hgood t ht
        · rintro ⟨hgood, rfl⟩
          exact ⟨fun t ht => hgood t (by simp [ht]), by simp⟩

theorem mem_rangeList {a b n : Int} : n ∈ rangeList a b ↔ a ≤ n ∧ n ≤ b := by
  simp only [rangeList, List.mem_map, List.mem_range]
  constructor
  · rintro ⟨i, hi, rfl⟩; omega
  · rintro ⟨h1, h2⟩; exact ⟨(n - a).toNat, by omega, by omega⟩

theorem rangeList_pairwise (a b : Int) : (rangeList a b).Pairwise (· < ·) := by
  unfold rangeList
  rw [List.pairwise_map]
  exact (List.pairwise_lt_range _).imp (by intro i j h; omega)

theorem tokErr_tok {total : Int} {tok : String} {e : SelError}
    (h : tokErr total tok = some e) : e.tok = tok := by
  by_cases hd : hasDash tok
  · rcases ha : pyInt (splitFirstDash tok).1 with _ | a
    · simp [tokErr, hd, ha] at h; subst h; rfl
    · rcases hb : pyInt (splitFirstDash tok).2 with _ | b
      · simp [tokErr, hd, ha, hb] at h; subst h; rfl
      · by_cases h3 : 1 ≤ a ∧ a ≤ b ∧ b ≤ total
        · simp [tokErr, hd, ha, hb, h3] at h
        · simp [tokErr, hd, ha, hb, h3] at h; subst h; rfl
  · rcases ha : pyInt tok with _ | p
    · simp [tokErr, hd, ha] at h; subst h; rfl
    · by_cases h3 : 1 ≤ p ∧ p ≤ total
      · simp [tokErr, hd, ha, h3] at h
      · simp [tokErr, hd, ha, h3] at h; subst h; rfl

theorem tokErr_kind {total : Int} {tok : String} {e : SelError}
    (h : tokErr total tok = some e) :
    e.isRangeKind = hasDash tok ∧ e.isPageKind = !hasDash tok := by
  by_cases hd : hasDash tok
  · rcases ha : pyInt (splitFirstDash tok).1 with _ | a
    · simp [tokErr, hd, ha] at h
      subst h; simp [SelError.isRangeKind, SelError.isPageKind, hd]
    · rcases hb : pyInt (splitFirstDash tok).2 with _ | b
      · simp [tokErr, hd, ha, hb] at h
        subst h; simp [SelError.isRangeKind, SelError.isPageKind, hd]
      · by_cases h3 : 1 ≤ a ∧ a ≤ b ∧ b ≤ total
        · simp [tokErr, hd, ha, hb, h3] at h
        · simp [tokErr, hd, ha, hb, h3] at h
          subst h; simp [SelError.isRangeKind, SelError.isPageKind, hd]
  · rcases ha : pyInt tok with _ | p
    · simp [tokErr, hd, ha] at h
      subst h
      simp only [Bool.not_eq_true] at hd
      simp [SelError.isRangeKind, SelError.isPageKind, hd]
    · by_cases h3 : 1 ≤ p ∧ p ≤ total
      · simp [tokErr, hd, ha, h3] at h
      · simp [tokErr, hd, ha, h3] at h
        subst h
        simp only [Bool.not_eq_true] at hd
        simp [SelError.isRangeKind, SelError.isPageKind, hd]

theorem tokExpand_bounds {total : Int} {tok : String}
    (h : tokErr total tok = none) :
    ∀ n ∈ tokExpand tok, 1 ≤ n ∧ n ≤ total := by
  intro n hn
  by_cases hd : hasDash tok
  · rcases ha : pyInt (splitFirstDash tok).1 with _ | a
    · simp [tokErr, hd, ha] at h
    · rcases hb : pyInt (splitFirstDash tok).2 with _ | b
      · simp [tokErr, hd, ha, hb] at h
      · by_cases h3 : 1 ≤ a ∧ a ≤ b ∧ b ≤ total
        · simp [tokExpand, hd, ha, hb] at hn
          rw [mem_rangeList] at hn
          omega
        · simp [tokErr, hd, ha, hb, h3] at h
  · rcases ha : pyInt tok with _ | p
    · simp [tokErr, hd, ha] at h
    · by_cases h3 : 1 ≤ p ∧ p ≤ total
      · simp [tokExpand, hd, ha] at hn
        subst hn; omega
      · simp [tokErr, hd, ha, h3] at h

/-! Helper lemmas about traces and the split engine. -/

theorem writesOf_append (a b : List Ev) :
    writesOf (a ++ b) = writesOf a ++ writesOf b := by
  induction a with
  | nil => rfl
  | cons e r ih => cases e <;> simp [writesOf, ih]

theorem progressOf_append (a b : List Ev) :
    progressOf (a ++ b) = progressOf a ++ progressOf b := by
  induction a with
  | nil => rfl
  | cons e r ih => cases e <;> simp [progressOf, ih]

theorem wpOf_append (a b : List Ev) :
    wpOf (a ++ b) = wpOf a ++ wpOf b := by
  induction a with
  | nil => rfl
  | cons e r ih => cases e <;> simp [wpOf, ih]

theorem writesOf_splitPagesLoop (base : String) (total idx : Nat)
    (pages : List Page) :
    writesOf (splitPagesLoop base total idx pages) =
      (List.range pages.length).map
        (fun i => (base ++ "_p" ++ pad 3 (idx + i) ++ ".pdf",
                   [pages.getD i 0])) := by
  induction pages generalizing idx with
  | nil => rfl
  | cons p rest ih =>
    rw [List.length_cons, List.range_succ_eq_map]
    simp only [splitPagesLoop, writesOf, List.map_cons, List.map_map]
    congr 1
    rw [ih (idx + 1)]
    refine List.map_congr_left ?_
    intro i _
    have h : idx + 1 + i = idx + (i + 1) := by omega
    simp [Function.comp, h, Nat.succ_eq_add_one]

theorem progressOf_splitPagesLoop (base : String) (total idx : Nat)
    (pages : List Page) :
    progressOf (splitPagesLoop base total idx pages) =
      (List.range pages.length).map (fun i => (idx + i, total)) := by
  induction pages generalizing idx with
  | nil => rfl
  | cons p rest ih =>
    rw [List.length_cons, List.range_succ_eq_map]
    simp only [splitPagesLoop, progressOf, List.map_cons, List.map_map]
    congr 1
    rw [ih (idx + 1)]
    refine List.map_congr_left ?_
    intro i _
    have h : idx + 1 + i = idx + (i + 1) := by omega
    simp [Function.comp, h, Nat.succ_eq_add_one]

theorem wpOf_splitPagesLoop (base : String) (total idx : Nat)
    (pages : List Page) :
    wpOf (splitPagesLoop base total idx pages) =
      (List.range pages.length).flatMap
        (fun i => [Ev.write (base ++ "_p" ++ pad 3 (idx + i) ++ ".pdf")
                     [pages.getD i 0],
                   Ev.progress (idx + i) total]) := by
  induction pages generalizing idx with
  | nil => rfl
  | cons p rest ih =>
    rw [List.length_cons, List.range_succ_eq_map, List.flatMap_cons,
      List.flatMap_map]
    simp only [splitPagesLoop, wpOf, Nat.add_zero, List.getD_cons_zero,
      List.cons_append, List.nil_append, List.cons.injEq, true_and]
    rw [ih (idx + 1), List.flatMap_def, List.flatMap_def]
    congr 1
    refine List.map_congr_left ?_
    intro i _
    have h : idx + 1 + i = idx + (i + 1) := by omega
    simp [Function.comp, h, Nat.succ_eq_add_one]

theorem pyIndex_pos {l : List Page} {p : Int} (h1 : 1 ≤ p)
    (h2 : p ≤ (l.length : Int)) :
    pyIndex l (p - 1) = some (l.getD (p - 1).toNat 0) := by
  unfold pyIndex
  have h0 : ¬((p - 1 : Int) < 0) := by omega
  simp only [h0, if_false]
  have hj : (0 : Int) ≤ p - 1 ∧ p - 1 < (l.length : Int) := by omega
  rw [dif_pos hj]
  rw [List.getD_eq_getElem l 0 (by omega)]
  simp [List.get_eq_getElem]

theorem fetchPages_of_bounds {pages : List Page} {ps : List Int}
    (h : ∀ p ∈ ps, 1 ≤ p ∧ p ≤ (pages.length : Int)) :
    fetchPages pages ps =
      some (ps.map (fun p => pages.getD (p - 1).toNat 0)) := by
  induction ps with
  | nil => rfl
  | cons p rest ih =>
    have hp := h p (by simp)
    simp only [fetchPages, pyIndex_pos hp.1 hp.2,
      ih (fun q hq => h q (by simp [hq]))]
    simp [List.map_cons]

theorem parse_ok_bounds {s : String} {total : Int} {ps : List Int}
    (h : parse_page_selection s total = .ok ps) :
    ∀ p ∈ ps, 1 ≤ p ∧ p ≤ total := by
  unfold parse_page_selection at h
  rw [parseLoop_ok_iff] at h
  obtain ⟨hgood, rfl⟩ := h
  intro p hp
  simp only [List.nil_append, List.mem_flatMap] at hp
  obtain ⟨tok, htok, hmem⟩ := hp
  exact tokExpand_bounds (hgood tok htok) p hmem

theorem groupContent_of_ok {doc : Document} {g : String} {ps : List Int}
    (h : parse_page_selection g (doc.pages.length : Int) = .ok ps) :
    groupContent doc g = ps.map (fun p => doc.pages.getD (p - 1).toNat 0) := by
  unfold groupContent
  rw [h]

theorem chosenLoop_ok (base : String) (doc : Document) (tg : Nat)
    (groups : List String) (idx : Nat)
    (h : ∀ g ∈ groups,
      ∃ ps, parse_page_selection g (doc.pages.length : Int) = .ok ps) :
    (chosenLoop base doc tg idx groups).2 = none ∧
    writesOf (chosenLoop base doc tg idx groups).1 =
      (List.range groups.length).map
        (fun i => (base ++ "_sel" ++ pad 2 (idx + i) ++ ".pdf",
                   groupContent doc (groups.getD i ""))) ∧
    progressOf (chosenLoop base doc tg idx groups).1 =
      (List.range groups.length).map (fun i => (idx + i, tg)) := by
  induction groups generalizing idx with
  | nil => exact ⟨rfl, rfl, rfl⟩
  | cons g rest ih =>
    obtain ⟨ps, hps⟩ := h g (by simp)
    have hfetch := fetchPages_of_bounds (parse_ok_bounds hps)
    have hrest := ih (idx + 1) (fun u hu => h u (by simp [hu]))
    simp only [chosenLoop, hps, hfetch]
    refine ⟨hrest.1, ?_, ?_⟩
    · rw [List.length_cons, List.range_succ_eq_map]
      simp only [writesOf, List.map_cons, List.map_map]
      congr 1
      · rw [Nat.add_zero, List.getD_cons_zero, groupContent_of_ok hps]
      · rw [hrest.2.1]
        refine List.map_congr_left ?_
        intro i _
        have hx : idx + 1 + i = idx + (i + 1) := by omega
        simp [Function.comp, hx, Nat.succ_eq_add_one]
    · rw [List.length_cons, List.range_succ_eq_map]
      simp only [progressOf, List.map_cons, List.map_map]
      congr 1
      rw [hrest.2.2]
      refine List.map_congr_left ?_
      intro i _
      have hx : idx + 1 + i = idx + (i + 1) := by omega
      simp [Function.comp, hx, Nat.succ_eq_add_one]

theorem chosenLoop_error (base : String) (doc : Document) (tg : Nat)
    (pre : List String) (g : String) (post : List String) (e : SelError)
    (idx : Nat)
    (hpre : ∀ t ∈ pre,
      ∃ ps, parse_page_selection t (doc.pages.length : Int) = .ok ps)
    (hbad : parse_page_selection g (doc.pages.length : Int) = .error e) :
    (chosenLoop base doc tg idx (pre ++ g :: post)).2 = some (.selection e) ∧
    writesOf (chosenLoop base doc tg idx (pre ++ g :: post)).1 =
      (List.range pre.length).map
        (fun i => (base ++ "_sel" ++ pad 2 (idx + i) ++ ".pdf",
                   groupContent doc (pre.getD i ""))) := by
  induction pre generalizing idx with
  | nil =>
    refine ⟨?_, ?_⟩ <;> simp [chosenLoop, hbad, writesOf]
  | cons t pre ih =>
    obtain ⟨ps, hps⟩ := hpre t (by simp)
    have hfetch := fetchPages_of_bounds (parse_ok_bounds hps)
    have hrest := ih (idx + 1) (fun u hu => hpre u (by simp [hu]))
    simp only [List.cons_append, chosenLoop, hps, hfetch]
    refine ⟨hrest.1, ?_⟩
    rw [List.length_cons, List.range_succ_eq_map]
    simp only [writesOf, List.map_cons, List.map_map]
    congr 1
    · rw [Nat.add_zero, List.getD_cons_zero, groupContent_of_ok hps]
    · simp only [List.append_eq]
      rw [hrest.2]
      refine List.map_congr_left ?_
      intro i _
      have hx : idx + 1 + i = idx + (i + 1) := by omega
      simp [Function.comp, hx, Nat.succ_eq_add_one]

theorem mergeLoop_ok (fs : FileSys) (total : Nat) (paths : List String)
    (acc : List Page) (idx : Nat)
    (h : ∀ p ∈ paths,
      ∃ d, fs.lookup p = some d ∧ (d.encrypted && !d.decryptOk) = false) :
    (mergeLoop fs total acc idx paths).2 =
      .ok (acc ++ (paths.map (docPages fs)).flatten) ∧
    writesOf (mergeLoop fs total acc idx paths).1 = [] ∧
    progressOf (mergeLoop fs total acc idx paths).1 =
      (List.range paths.length).map (fun i => (idx + i, total)) := by
  induction paths generalizing acc idx with
  | nil => simp [mergeLoop, writesOf, progressOf]
  | cons p rest ih =>
    obtain ⟨d, hd, hdec⟩ := h p (by simp)
    have hrest := ih (acc ++ d.pages) (idx + 1)
      (fun q hq => h q (by simp [hq]))
    have hdp : docPages fs p = d.pages := by
      unfold docPages; rw [hd]; rfl
    simp only [mergeLoop, hd, hdec, if_false]
    refine ⟨?_, hrest.2.1, ?_⟩
    · rw [hrest.1]
      simp [hdp, List.append_assoc]
    · rw [List.length_cons, List.range_succ_eq_map]
      simp only [progressOf, List.map_cons, List.map_map]
      congr 1
      rw [hrest.2.2]
      refine List.map_congr_left ?_
      intro i _
      have hx : idx + 1 + i = idx + (i + 1) := by omega
      simp [Function.comp, hx, Nat.succ_eq_add_one]

/-! The claims. -/

theorem split_run (pdf_path out_dir : String) (doc : Document)
    (h1 : pdf_path ≠ "") (h2 : out_dir ≠ "")
    (henc : doc.encrypted = false ∨ doc.decryptOk = true)
    (hN : doc.pages.length ≠ 0) :
    PdfSplitter.split pdf_path out_dir true true doc =
      (Ev.status "Reading PDF..."
         :: splitPagesLoop (baseOf pdf_path) doc.pages.length 1 doc.pages
         ++ [Ev.status ("Done. Wrote " ++ toString doc.pages.length
                          ++ " files to:\n" ++ out_dir)],
       none) := by
  have he : (doc.encrypted && !doc.decryptOk) = false := by
    rcases henc with h | h <;> simp [h]
  unfold PdfSplitter.split
  simp [h1, h2, he, hN]

/-- C1: for a selection string all of whose (stripped, non-blank) tokens
are valid for `total_pages`, `parse_page_selection` returns the pages in
token order, each range token expanded by `tokExpand` to `rangeList A B`
(all integers from A to B inclusive, ascending, no de-duplication across
tokens) and each singleton token emitted as given; in particular
`parse("2,4-6,1", 10) = [2,4,5,6,1]`. -/
theorem parse_token_order_expansion (s : String) (total : Int)
    (h : ∀ tok ∈ cleanToks s, tokErr total tok = none) :
    parse_page_selection s total = .ok ((cleanToks s).flatMap tokExpand) ∧
    (∀ a b : Int, (rangeList a b).Pairwise (· < ·) ∧
      ∀ n : Int, n ∈ rangeList a b ↔ a ≤ n ∧ n ≤ b) ∧
    parse_page_selection "2,4-6,1" 10 = .ok [2, 4, 5, 6, 1] := by
  refine ⟨?_, ?_, rfl⟩
  · unfold parse_page_selection
    rw [parseLoop_ok_iff]
    exact ⟨h, by simp [cleanToks_eq_cleanParts]⟩
  · intro a b
    exact ⟨rangeList_pairwise a b, fun n => mem_rangeList⟩

/-- Witness for `parse_token_order_expansion` at `"2,4-6,1"` with 10
pages. -/
theorem parse_token_order_expansion_w :
    parse_page_selection "2,4-6,1" 10 = .ok [2, 4, 5, 6, 1] :=
  (parse_token_order_expansion "2,4-6,1" 10 (by decide)).1.trans rfl

/-- C2: splitting an N-page document (N ≥ 1) with valid paths succeeds and
writes exactly N files, the i-th (0-based) named
`base_p(i+1, zero-padded to 3).pdf` and containing exactly page i+1;
progress is reported as (1,N), …, (N,N) in that order, and the write and
progress events interleave so that progress (k, N) is reported right
after the write of file k — in particular reported progress reaches
(N, N). -/
theorem split_writes_every_page (pdf_path out_dir : String) (doc : Document)
    (h1 : pdf_path ≠ "") (h2 : out_dir ≠ "")
    (henc : doc.encrypted = false ∨ doc.decryptOk = true)
    (hN : 1 ≤ doc.pages.length) :
    (PdfSplitter.split pdf_path out_dir true true doc).2 = none ∧
    writesOf (PdfSplitter.split pdf_path out_dir true true doc).1 =
      (List.range doc.pages.length).map
        (fun i => (baseOf pdf_path ++ "_p" ++ pad 3 (i + 1) ++ ".pdf",
                   [doc.pages.getD i 0])) ∧
    progressOf (PdfSplitter.split pdf_path out_dir true true doc).1 =
      (List.range doc.pages.length).map
        (fun i => (i + 1, doc.pages.length)) ∧
    wpOf (PdfSplitter.split pdf_path out_dir true true doc).1 =
      (List.range doc.pages.length).flatMap
        (fun i => [Ev.write (baseOf pdf_path ++ "_p" ++ pad 3 (i + 1) ++ ".pdf")
                     [doc.pages.getD i 0],
                   Ev.progress (i + 1) doc.pages.length]) := by
  rw [split_run pdf_path out_dir doc h1 h2 henc (by omega)]
  refine ⟨rfl, ?_, ?_, ?_⟩
  · simp only [writesOf, List.append_eq, writesOf_append,
      writesOf_splitPagesLoop, List.append_nil]
    refine List.map_congr_left ?_
    intro i _
    have hx : 1 + i = i + 1 := by omega
    simp [hx]
  · simp only [progressOf, List.append_eq, progressOf_append,
      progressOf_splitPagesLoop, List.append_nil]
    refine List.map_congr_left ?_
    intro i _
    have hx : 1 + i = i + 1 := by omega
    simp [hx]
  · simp only [wpOf, List.append_eq, wpOf_append, wpOf_splitPagesLoop,
      List.append_nil]
    rw [List.flatMap_def, List.flatMap_def]
    congr 1
    refine List.map_congr_left ?_
    intro i _
    have hx : 1 + i = i + 1 := by omega
    simp [hx]

/-- Witness for `split_writes_every_page` at a concrete two-page
document. -/
theorem split_writes_every_page_w :
    writesOf (PdfSplitter.split "a.pdf" "o" true true
        ⟨[7, 8], false, true⟩).1 =
      [("a_p001.pdf", [7]), ("a_p002.pdf", [8])] ∧
    progressOf (PdfSplitter.split "a.pdf" "o" true true
        ⟨[7, 8], false, true⟩).1 = [(1, 2), (2, 2)] :=
  ⟨(split_writes_every_page "a.pdf" "o" ⟨[7, 8], false, true⟩ (by decide)
      (by decide) (Or.inl rfl) (by decide)).2.1.trans (by decide),
   (split_writes_every_page "a.pdf" "o" ⟨[7, 8], false, true⟩ (by decide)
      (by decide) (Or.inl rfl) (by decide)).2.2.1.trans (by decide)⟩

/-- C8: splitting a document with zero pages fails with the EmptyDocument
error and writes no output files. -/
theorem split_zero_pages_empty_document (pdf_path out_dir : String)
    (doc : Document) (h1 : pdf_path ≠ "") (h2 : out_dir ≠ "")
    (henc : doc.encrypted = false ∨ doc.decryptOk = true)
    (h0 : doc.pages = []) :
    (PdfSplitter.split pdf_path out_dir true true doc).2 =
      some AppError.emptyDocument ∧
    writesOf (PdfSplitter.split pdf_path out_dir true true doc).1 = [] := by
  have he : (doc.encrypted && !doc.decryptOk) = false := by
    rcases henc with h | h <;> simp [h]
  unfold PdfSplitter.split
  simp [h1, h2, he, h0, writesOf]

/-- Witness for `split_zero_pages_empty_document` at a concrete zero-page
document. -/
theorem split_zero_pages_empty_document_w :
    (PdfSplitter.split "a.pdf" "o" true true ⟨[], false, true⟩).2 =
      some AppError.emptyDocument :=
  (split_zero_pages_empty_document "a.pdf" "o" ⟨[], false, true⟩
    (by decide) (by decide) (Or.inl rfl) rfl).1

/-- C3: merging a list of existing, non-encrypted documents succeeds; the
output is written exactly once, with the concatenation of the sources'
pages in listed order and original page order, and the single write
happens only after every source has been processed (all progress reports
precede it), never incrementally. -/
theorem merge_concatenates_in_order (paths_str out_path : String)
    (fs : FileSys) (h0 : paths_str ≠ "") (h1 : out_path ≠ "")
    (h : ∀ p ∈ mergePaths paths_str,
      ∃ d, fs.lookup p = some d ∧ d.encrypted = false) :
    (PdfMerger.merge paths_str out_path fs).2 = none ∧
    writesOf (PdfMerger.merge paths_str out_path fs).1 =
      [(out_path, ((mergePaths paths_str).map (docPages fs)).flatten)] ∧
    (∃ pre, (PdfMerger.merge paths_str out_path fs).1 =
        pre ++ [Ev.write out_path
                  (((mergePaths paths_str).map (docPages fs)).flatten),
                Ev.status ("Done. Wrote merged PDF to:\n" ++ out_path)] ∧
      writesOf pre = [] ∧
      progressOf pre =
        (List.range (mergePaths paths_str).length).map
          (fun i => (i + 1, (mergePaths paths_str).length))) := by
  have h' : ∀ p ∈ mergePaths paths_str,
      ∃ d, fs.lookup p = some d ∧ (d.encrypted && !d.decryptOk) = false := by
    intro p hp
    obtain ⟨d, hd, he⟩ := h p hp
    exact ⟨d, hd, by simp [he]⟩
  have hm := mergeLoop_ok fs (mergePaths paths_str).length
    (mergePaths paths_str) [] 1 h'
  have hrun : PdfMerger.merge paths_str out_path fs =
      ((mergeLoop fs (mergePaths paths_str).length [] 1
          (mergePaths paths_str)).1
         ++ [Ev.write out_path
               (((mergePaths paths_str).map (docPages fs)).flatten),
             Ev.status ("Done. Wrote merged PDF to:\n" ++ out_path)],
       none) := by
    unfold PdfMerger.merge
    simp only [h0, h1, if_false, ite_false, if_neg, hm.1]
    simp [h0, h1, hm.1]
  rw [hrun]
  refine ⟨rfl, ?_, ?_⟩
  · rw [writesOf_append, hm.2.1]
    rfl
  · refine ⟨_, rfl, hm.2.1, ?_⟩
    rw [hm.2.2]
    refine List.map_congr_left ?_
    intro i _
    have hx : 1 + i = i + 1 := by omega
    simp [hx]

/-- Witness for `merge_concatenates_in_order`: sources with page counts
2 and 3 merge into the 5-page concatenation. -/
theorem merge_concatenates_in_order_w :
    writesOf (PdfMerger.merge "a;b" "out.pdf"
        ⟨[("a", ⟨[1, 2], false, true⟩), ("b", ⟨[3, 4, 5], false, true⟩)]⟩).1 =
      [("out.pdf", [1, 2, 3, 4, 5])] :=
  ((merge_concatenates_in_order "a;b" "out.pdf"
      ⟨[("a", ⟨[1, 2], false, true⟩), ("b", ⟨[3, 4, 5], false, true⟩)]⟩
      (by decide) (by decide) (by
        intro p hp
        have hmp : mergePaths "a;b" = ["a", "b"] := rfl
        rw [hmp] at hp
        simp only [List.mem_cons, List.not_mem_nil, or_false] at hp
        rcases hp with rfl | rfl
        · exact ⟨⟨[1, 2], false, true⟩, rfl, rfl⟩
        · exact ⟨⟨[3, 4, 5], false, true⟩, rfl, rfl⟩)).2.1).trans (by decide)

/-- C4 counterexample: for the input string `";"` the split-trim-drop of
the sources is empty, yet merge does not fail with MissingInput — it
writes a zero-page output file and succeeds. -/
theorem merge_blank_list_writes_empty_cex :
    mergePaths ";" = [] ∧
    PdfMerger.merge ";" "out.pdf" ⟨[]⟩ =
      ([Ev.write "out.pdf" [],
        Ev.status "Done. Wrote merged PDF to:\nout.pdf"], none) :=
  ⟨rfl, rfl⟩

/-- C4 (amended): merge fails with MissingInput (and performs no writes)
exactly for the empty raw input string; a non-empty input whose pieces
are all blank yields an empty source list, and merge then writes a
zero-page output document. -/
theorem merge_missing_input_amended (paths_str out_path : String)
    (fs : FileSys) :
    (paths_str = "" →
      PdfMerger.merge paths_str out_path fs =
        ([], some AppError.missingInput)) ∧
    (paths_str ≠ "" → out_path ≠ "" → mergePaths paths_str = [] →
      PdfMerger.merge paths_str out_path fs =
        ([Ev.write out_path [],
          Ev.status ("Done. Wrote merged PDF to:\n" ++ out_path)], none)) := by
  constructor
  · intro h
    simp [PdfMerger.merge, h]
  · intro h1 h2 h3
    unfold PdfMerger.merge
    simp [h1, h2, h3, mergeLoop]

/-- Witness for `merge_missing_input_amended` at `""` and `";"`. -/
theorem merge_missing_input_amended_w :
    PdfMerger.merge "" "out.pdf" ⟨[]⟩ = ([], some AppError.missingInput) ∧
    PdfMerger.merge ";" "out.pdf" ⟨[]⟩ =
      ([Ev.write "out.pdf" [],
        Ev.status "Done. Wrote merged PDF to:\nout.pdf"], none) :=
  ⟨(merge_missing_input_amended "" "out.pdf" ⟨[]⟩).1 rfl,
   (merge_missing_input_amended ";" "out.pdf" ⟨[]⟩).2 (by decide) (by decide)
     rfl⟩

/-- C6: when group k (here: the group after the valid prefix `pre`) is
the first group of `split_chosen_pages` that fails to parse, the
operation stops there: it reports that group's parse error, and the trace
contains exactly the `pre.length` files already written for the earlier
valid groups (not rolled back), with nothing written for the failing
group or any later one. -/
theorem chosen_pages_first_bad_group_aborts
    (pdf_path out_dir pages_spec : String) (doc : Document)
    (pre : List String) (g : String) (post : List String) (e : SelError)
    (h1 : pdf_path ≠ "") (h2 : out_dir ≠ "") (h3 : pages_spec ≠ "")
    (henc : doc.encrypted = false ∨ doc.decryptOk = true)
    (hg : specGroups pages_spec = pre ++ g :: post)
    (hpre : ∀ t ∈ pre,
      ∃ ps, parse_page_selection t (doc.pages.length : Int) = .ok ps)
    (hbad : parse_page_selection g (doc.pages.length : Int) = .error e) :
    (PdfSplitter.split_chosen_pages pdf_path out_dir pages_spec
        true true doc).2 = some (.selection e) ∧
    writesOf (PdfSplitter.split_chosen_pages pdf_path out_dir pages_spec
        true true doc).1 =
      (List.range pre.length).map
        (fun i => (baseOf pdf_path ++ "_sel" ++ pad 2 (i + 1) ++ ".pdf",
                   groupContent doc (pre.getD i ""))) := by
  have he : (doc.encrypted && !doc.decryptOk) = false := by
    rcases henc with h | h <;> simp [h]
  have hne : specGroups pages_spec ≠ [] := by simp [hg]
  have hcl := chosenLoop_error (baseOf pdf_path) doc
    (specGroups pages_spec).length pre g post e 1 hpre hbad
  unfold PdfSplitter.split_chosen_pages
  rw [hg] at hcl
  simp only [h1, h2, h3, hne, he, if_false, ite_false]
  simp only [hg, hcl.1]
  refine ⟨rfl, ?_⟩
  simp only [writesOf, hcl.2]
  refine List.map_congr_left ?_
  intro i _
  have hx : 1 + i = i + 1 := by omega
  simp [hx]

/-- Witness for `chosen_pages_first_bad_group_aborts`: on a one-page
document with groups `"1;0"`, the first group's file is written and kept,
the second group's parse error is reported. -/
theorem chosen_pages_first_bad_group_aborts_w :
    (PdfSplitter.split_chosen_pages "a.pdf" "o" "1;0" true true
        ⟨[7], false, true⟩).2 =
      some (.selection (.pageOutOfBounds "0")) ∧
    writesOf (PdfSplitter.split_chosen_pages "a.pdf" "o" "1;0" true true
        ⟨[7], false, true⟩).1 = [("a_sel01.pdf", [7])] :=
  ⟨(chosen_pages_first_bad_group_aborts "a.pdf" "o" "1;0"
      ⟨[7], false, true⟩ ["1"] "0" [] (.pageOutOfBounds "0")
      (by decide) (by decide) (by decide) (Or.inl rfl) rfl
      (by
        intro t ht
        simp only [List.mem_singleton] at ht
        subst ht
        exact ⟨[1], rfl⟩) rfl).1,
   ((chosen_pages_first_bad_group_aborts "a.pdf" "o" "1;0"
      ⟨[7], false, true⟩ ["1"] "0" [] (.pageOutOfBounds "0")
      (by decide) (by decide) (by decide) (Or.inl rfl) rfl
      (by
        intro t ht
        simp only [List.mem_singleton] at ht
        subst ht
        exact ⟨[1], rfl⟩) rfl).2).trans (by decide)⟩

/-- C5 counterexample: split_chosen_pages on `"1;0"` over a one-page
document fails with a selection-grammar error, yet an output file has
already been written in that same invocation. -/
theorem chosen_grammar_error_after_write_cex :
    (PdfSplitter.split_chosen_pages "a.pdf" "o" "1;0" true true
        ⟨[7], false, true⟩).2 =
      some (AppError.selection (.pageOutOfBounds "0")) ∧
    writesOf (PdfSplitter.split_chosen_pages "a.pdf" "o" "1;0" true true
        ⟨[7], false, true⟩).1 ≠ [] :=
  ⟨rfl, by decide⟩

/-- C5 (amended): `split` performs no selection parsing and never fails
with a grammar error; when `split_chosen_pages` fails with a grammar
error — which happens at the first group that fails to parse — no output
file of the failing group or of any later group has been written in that
invocation: every file written belongs to one of the earlier valid
groups. -/
theorem grammar_error_no_failing_group_write
    (pdf_path out_dir pages_spec : String) (doc : Document) (fe mk : Bool)
    (pre : List String) (g : String) (post : List String) (e : SelError)
    (hg : specGroups pages_spec = pre ++ g :: post)
    (hpre : ∀ t ∈ pre,
      ∃ ps, parse_page_selection t (doc.pages.length : Int) = .ok ps)
    (hbad : parse_page_selection g (doc.pages.length : Int) = .error e) :
    (∀ e', (PdfSplitter.split pdf_path out_dir fe mk doc).2 ≠
      some (.selection e')) ∧
    (∀ w ∈ writesOf (PdfSplitter.split_chosen_pages pdf_path out_dir
        pages_spec true true doc).1,
      ∃ i, i < pre.length ∧
        w.1 = baseOf pdf_path ++ "_sel" ++ pad 2 (i + 1) ++ ".pdf") := by
  constructor
  · intro e'
    unfold PdfSplitter.split
    cases fe <;> cases mk <;>
      by_cases c1 : pdf_path = "" <;>
      by_cases c2 : out_dir = "" <;>
      by_cases cenc : (doc.encrypted && !doc.decryptOk) = true <;>
      by_cases cN : doc.pages.length = 0 <;>
        simp [c1, c2, cenc, cN]
  · intro w hw
    unfold PdfSplitter.split_chosen_pages at hw
    by_cases c1 : pdf_path = ""
    · simp [c1, writesOf] at hw
    by_cases c2 : out_dir = ""
    · simp [c1, c2, writesOf] at hw
    by_cases c3 : pages_spec = ""
    · simp [c1, c2, c3, writesOf] at hw
    have hne : specGroups pages_spec ≠ [] := by simp [hg]
    by_cases cenc : (doc.encrypted && !doc.decryptOk) = true
    · simp [c1, c2, c3, hne, cenc, writesOf] at hw
    · have hcl := chosenLoop_error (baseOf pdf_path) doc
        (specGroups pages_spec).length pre g post e 1 hpre hbad
      rw [hg] at hcl
      have hne' : ¬(pre ++ g :: post = []) := by simp
      simp only [c1, c2, c3, cenc, hg, hne', if_false, ite_false,
        Bool.false_eq_true, Bool.not_true] at hw
      simp only [hcl.1, writesOf, hcl.2] at hw
      rw [List.mem_map] at hw
      obtain ⟨i, hi, rfl⟩ := hw
      refine ⟨i, by simpa using hi, ?_⟩
      have hx : 1 + i = i + 1 := by omega
      simp [hx]

/-- Witness for `grammar_error_no_failing_group_write` at a concrete
invocation with first bad group `"0"`. -/
theorem grammar_error_no_failing_group_write_w :
    (PdfSplitter.split "a.pdf" "o" true true ⟨[7], false, true⟩).2 ≠
      some (AppError.selection (SelError.pageOutOfBounds "0")) :=
  (grammar_error_no_failing_group_write "a.pdf" "o" "1;0"
    ⟨[7], false, true⟩ true true ["1"] "0" [] (.pageOutOfBounds "0") rfl
    (by
      intro t ht
      simp only [List.mem_singleton] at ht
      subst ht
      exact ⟨[1], rfl⟩) rfl).1 (.pageOutOfBounds "0")

/-- C7 counterexample: in `"x,1-0"` the range token `"1-0"` has integer
parts violating `1 ≤ A ≤ B ≤ total_pages`, so by the claim the parse
should fail with InvalidRange; it actually fails with the
InvalidPageNumber-kind error for the earlier singleton `"x"`, so the
claimed biconditional is false. -/
theorem parse_error_kind_not_exact_cex :
    parse_page_selection "x,1-0" 5 = .error (.invalidPageNumber "x") ∧
    (SelError.invalidPageNumber "x").isRangeKind = false ∧
    "1-0" ∈ cleanToks "x,1-0" ∧
    hasDash "1-0" = true ∧
    pyInt (splitFirstDash "1-0").1 = some 1 ∧
    pyInt (splitFirstDash "1-0").2 = some 0 ∧
    ¬(1 ≤ (1 : Int) ∧ (1 : Int) ≤ 0 ∧ (0 : Int) ≤ 5) :=
  ⟨rfl, rfl, by decide, rfl, rfl, rfl, by decide⟩

/-- C7 (amended): the parse fails with an InvalidRange-kind error exactly
when the first offending token is a range token whose parts do not parse
as integers or whose bounds fail, and with an InvalidPageNumber-kind
error exactly when the first offending token is a singleton that does not
parse as an integer or is out of bounds; every error carries the
offending token — its message ends with the token verbatim — and the
claim's concrete examples hold. -/
theorem parse_error_first_offender (s : String) (total : Int) :
    ((∃ e, parse_page_selection s total = .error e ∧ e.isRangeKind = true) ↔
      ∃ pre tok post, cleanToks s = pre ++ tok :: post ∧
        (∀ t ∈ pre, tokErr total t = none) ∧
        ∃ e, tokErr total tok = some e ∧ e.isRangeKind = true) ∧
    ((∃ e, parse_page_selection s total = .error e ∧ e.isPageKind = true) ↔
      ∃ pre tok post, cleanToks s = pre ++ tok :: post ∧
        (∀ t ∈ pre, tokErr total t = none) ∧
        ∃ e, tokErr total tok = some e ∧ e.isPageKind = true) ∧
    (∀ e, parse_page_selection s total = .error e →
      (∃ pre post, cleanToks s = pre ++ e.tok :: post ∧
        (∀ t ∈ pre, tokErr total t = none) ∧
        tokErr total e.tok = some e) ∧
      ∃ q, e.message = q ++ e.tok) ∧
    parse_page_selection "0" 5 = .error (.pageOutOfBounds "0") ∧
    parse_page_selection "3-2" 5 = .error (.rangeOutOfBounds "3-2") ∧
    parse_page_selection "5-9" 5 = .error (.rangeOutOfBounds "5-9") := by
  have herr : ∀ e : SelError, parse_page_selection s total = .error e ↔
      ∃ pre tok post, cleanToks s = pre ++ tok :: post ∧
        (∀ t ∈ pre, tokErr total t = none) ∧ tokErr total tok = some e :=
    fun e => parseLoop_error_iff total [] (pySplit ',' s) e
  refine ⟨?_, ?_, ?_, rfl, rfl, rfl⟩
  · constructor
    · rintro ⟨e, he, hk⟩
      obtain ⟨pre, tok, post, hdec, hp, htok⟩ := (herr e).mp he
      exact ⟨pre, tok, post, hdec, hp, e, htok, hk⟩
    · rintro ⟨pre, tok, post, hdec, hp, e, htok, hk⟩
      exact ⟨e, (herr e).mpr ⟨pre, tok, post, hdec, hp, htok⟩, hk⟩
  · constructor
    · rintro ⟨e, he, hk⟩
      obtain ⟨pre, tok, post, hdec, hp, htok⟩ := (herr e).mp he
      exact ⟨pre, tok, post, hdec, hp, e, htok, hk⟩
    · rintro ⟨pre, tok, post, hdec, hp, e, htok, hk⟩
      exact ⟨e, (herr e).mpr ⟨pre, tok, post, hdec, hp, htok⟩, hk⟩
  · intro e he
    obtain ⟨pre, tok, post, hdec, hp, htok⟩ := (herr e).mp he
    have ht := tokErr_tok htok
    constructor
    · refine ⟨pre, post, ?_, hp, ?_⟩
      · rw [ht]; exact hdec
      · rw [ht]; exact htok
    · rcases e with t | t | t | t <;> exact ⟨_, rfl⟩

/-- Witness for `parse_error_first_offender` at `"0"` with 5 pages. -/
theorem parse_error_first_offender_w :
    parse_page_selection "0" 5 = .error (.pageOutOfBounds "0") ∧
    ∃ q, (SelError.pageOutOfBounds "0").message =
      q ++ (SelError.pageOutOfBounds "0").tok :=
  ⟨(parse_error_first_offender "0" 5).2.2.2.1,
   ((parse_error_first_offender "0" 5).2.2.1 (.pageOutOfBounds "0")
      (parse_error_first_offender "0" 5).2.2.2.1).2⟩

/-- C9: every token containing a dash is classified as a range token, so
an InvalidPageNumber-kind error never carries a dashed token; in
particular `"-3"` splits at its first dash into `""` and `"3"`, the empty
left part does not parse as an integer, and for every total the parse of
`"-3"` fails with the InvalidRange error whose message is
`"Invalid range: -3"`. -/
theorem dash_token_always_range_kind (s : String) (total : Int)
    (e : SelError) (h : parse_page_selection s total = .error e) :
    (e.isPageKind = true → hasDash e.tok = false) ∧
    splitFirstDash "-3" = ("", "3") ∧
    pyInt "" = none ∧
    parse_page_selection "-3" total = .error (.invalidRange "-3") ∧
    (SelError.invalidRange "-3").message = "Invalid range: -3" := by
  refine ⟨?_, rfl, rfl, rfl, rfl⟩
  intro hp
  unfold parse_page_selection at h
  rw [parseLoop_error_iff] at h
  obtain ⟨pre, tok, post, hdec, hpre, hbad⟩ := h
  have hk := (tokErr_kind hbad).2
  have ht := tokErr_tok hbad
  rw [hp] at hk
  rw [ht]
  cases hdash : hasDash tok
  · rfl
  · rw [hdash] at hk
    simp at hk

/-- Witness for `dash_token_always_range_kind` at the failing parse of
`"0"`. -/
theorem dash_token_always_range_kind_w :
    hasDash (SelError.pageOutOfBounds "0").tok = false ∧
    parse_page_selection "-3" 5 = .error (.invalidRange "-3") :=
  ⟨(dash_token_always_range_kind "0" 5 (.pageOutOfBounds "0") rfl).1 rfl,
   (dash_token_always_range_kind "0" 5 (.pageOutOfBounds "0") rfl).2.2.2.1⟩

/-- C10: a selection string whose comma-separated tokens all strip to
empty parses to the empty page list without error; consequently
`split_chosen_pages` given the group `","` — which survives the
non-empty-group filter because it is not blank — writes a zero-page
output file for that group and succeeds. -/
theorem blank_tokens_empty_selection (s : String) (total : Int)
    (h : ∀ tok ∈ pySplit ',' s, pyStrip tok = "") :
    parse_page_selection s total = .ok [] ∧
    pyStrip "," ≠ "" ∧
    (PdfSplitter.split_chosen_pages "a.pdf" "o" "," true true
        ⟨[5], false, true⟩).2 = none ∧
    writesOf (PdfSplitter.split_chosen_pages "a.pdf" "o" "," true true
        ⟨[5], false, true⟩).1 = [("a_sel01.pdf", [])] := by
  refine ⟨?_, by decide, rfl, rfl⟩
  unfold parse_page_selection
  rw [parseLoop_ok_iff]
  have hcl : cleanParts (pySplit ',' s) = [] := by
    unfold cleanParts
    rw [List.filter_eq_nil_iff]
    intro t ht
    rw [List.mem_map] at ht
    obtain ⟨u, hu, rfl⟩ := ht
    simp [h u hu]
  rw [hcl]
  simp

/-- Witness for `blank_tokens_empty_selection` at `","`. -/
theorem blank_tokens_empty_selection_w :
    parse_page_selection "," 5 = .ok [] ∧
    writesOf (PdfSplitter.split_chosen_pages "a.pdf" "o" "," true true
        ⟨[5], false, true⟩).1 = [("a_sel01.pdf", [])] :=
  ⟨(blank_tokens_empty_selection "," 5 (by decide)).1,
   (blank_tokens_empty_selection "," 5 (by decide)).2.2.2⟩

end PdfSplit
